import Mathlib

/-!
Verification of the Reconciliation & Temporal Normalization Engine of the
FortressCode/Vertex student-dashboard repository.

The TypeScript source is shallowly embedded below:

* `parseDateToISO`       — src/unnamed/part_000 lines 544-575
* `formatScheduleDate`   — src/unnamed/part_000 lines 349-358
* `getDateValue` / sort  — src/unnamed/part_000 lines 389-425
* `enrolledCourseIds`, `enrolledModuleIds`, `fetchClassSchedules`
                         — src/unnamed/part_000 lines 243-427
* `projectToday`, `demoClass`, `todaysClassesFinal`
                         — src/unnamed/part_000 lines 602-664
* `fetchModules`         — src/unnamed/part_001 lines 248-319
* `processTimestamp`, `adaptMaterial`, `fetchMaterials`
                         — src/unnamed/part_001 lines 322-378

Modelling conventions: JavaScript runtime values that may populate the
heterogeneously-encoded `date` fields are represented by the closed inductive
type `DateField` (resp. `TSVal` for material timestamps), covering the value
shapes a Firestore document field can carry in this repository.  Machine
dates are integers (epoch milliseconds / epoch seconds), never floats: all
date data in the repository is whole-second.  JavaScript `NaN` instants
(produced by `new Date(<unparsable string>).getTime()`) are modelled by
`Option.none`; per the ECMAScript `SortCompare` specification a comparator
result of `NaN` is coerced to `+0`.  `new Date(s)` string parsing is modelled
for the strict ISO calendar-date form `YYYY-MM-DD` (parsed as UTC and
validated against the real calendar, exactly as the ECMAScript ISO parser
does); other vendor-specific textual formats do not occur in this
repository's data and are modelled as parse failures.
-/

namespace Vertex

/-! ### Calendar arithmetic (civil-from-days / days-from-civil) -/

/-- Is `y` a Gregorian leap year? -/
def isLeapYear (y : Nat) : Bool :=
  (y % 4 == 0 && y % 100 != 0) || (y % 400 == 0)

/-- Number of days in month `m` of year `y` (`m` is 1-based). -/
def daysInMonth (y m : Nat) : Nat :=
  if m == 2 then (if isLeapYear y then 29 else 28)
  else if m == 4 || m == 6 || m == 9 || m == 11 then 30
  else 31

/-- Does `(y, m, d)` denote a real Gregorian calendar date? -/
def isValidYMD (y m d : Nat) : Bool :=
  1 ≤ m && m ≤ 12 && 1 ≤ d && d ≤ daysInMonth y m

/-- Days since 1970-01-01 of the civil date `(y, m, d)` (Hinnant's
`days_from_civil` algorithm). -/
def daysFromCivil (y m d : Nat) : Int :=
  let yi : Int := (y : Int)
  let y2 : Int := if m ≤ 2 then yi - 1 else yi
  let era : Int := Int.fdiv y2 400
  let yoe : Int := y2 - era * 400
  let mp : Int := if m > 2 then (m : Int) - 3 else (m : Int) + 9
  let doy : Int := (153 * mp + 2) / 5 + (d : Int) - 1
  let doe : Int := yoe * 365 + yoe / 4 - yoe / 100 + doy
  era * 146097 + doe - 719468

/-- Civil date `(y, m, d)` of the day `days` since 1970-01-01 (Hinnant's
`civil_from_days` algorithm). -/
def civilFromDays (days : Int) : Int × Nat × Nat :=
  let z : Int := days + 719468
  let era : Int := Int.fdiv z 146097
  let doe : Nat := (z - era * 146097).toNat
  let yoe : Nat := (doe - doe / 1461 + doe / 36524 - doe / 146096) / 365
  let doy : Nat := doe - (365 * yoe + yoe / 4 - yoe / 100)
  let mp : Nat := (5 * doy + 2) / 153
  let d : Nat := doy - (153 * mp + 2) / 5 + 1
  let m : Nat := if mp < 10 then mp + 3 else mp - 9
  let y : Int := (yoe : Int) + era * 400 + (if m ≤ 2 then 1 else 0)
  (y, m, d)

/-- Zero-pad a natural number to two digits. -/
def pad2 (n : Nat) : String :=
  if n < 10 then "0" ++ toString n else toString n

/-- Zero-pad a year to four digits (ECMAScript `toISOString` year field for
years in `[0, 9999]`; years outside that range do not occur here). -/
def pad4 (y : Int) : String :=
  if y < 0 then "-" ++ toString (-y).toNat
  else
    let n := y.toNat
    if n < 10 then "000" ++ toString n
    else if n < 100 then "00" ++ toString n
    else if n < 1000 then "0" ++ toString n
    else toString n

/-- The `YYYY-MM-DD` prefix of `new Date(ms).toISOString()`. -/
def msToISODate (ms : Int) : String :=
  let days := Int.fdiv ms 86400000
  let c := civilFromDays days
  pad4 c.1 ++ "-" ++ pad2 c.2.1 ++ "-" ++ pad2 c.2.2

/-- Split a character list at every occurrence of `sep`, keeping empty
segments (the recursion underlying `jsSplit`). -/
def splitChars (sep : Char) : List Char → List (List Char)
  | [] => [[]]
  | x :: xs =>
    match splitChars sep xs, x == sep with
    | r, true => [] :: r
    | [], false => [[x]]
    | h :: t, false => (x :: h) :: t

/-- JavaScript `s.split(sep)` for a single-character separator (the source
only ever splits on `"T"` and `"-"`): always a nonempty list of segments,
empty segments kept. -/
def jsSplit (sep : Char) (s : String) : List String :=
  (splitChars sep s.data).map String.mk

/-- Numeric value of a list of decimal digit characters. -/
def digitsToNat (l : List Char) : Nat :=
  l.foldl (fun acc c => acc * 10 + (c.toNat - 48)) 0

/-- Parse a string of exactly `n` decimal digits. -/
def parseDigits (n : Nat) (s : String) : Option Nat :=
  if s.data.length == n && s.data.all Char.isDigit then some (digitsToNat s.data)
  else none

/-- Parse a strict `YYYY-MM-DD` string into a validated calendar date. -/
def parseYMDString (s : String) : Option (Nat × Nat × Nat) :=
  match jsSplit '-' s with
  | [ys, ms, ds] =>
    match parseDigits 4 ys, parseDigits 2 ms, parseDigits 2 ds with
    | some y, some m, some d =>
        if isValidYMD y m d then some (y, m, d) else none
    | _, _, _ => none
  | _ => none

/-- Model of `new Date(s).getTime()` on the string inputs occurring in this
repository: the strict ISO calendar-date form parses to UTC midnight of that
day; every other string yields `NaN`, modelled as `none`. -/
def jsDateParseMs (s : String) : Option Int :=
  (parseYMDString s).map (fun t => daysFromCivil t.1 t.2.1 t.2.2 * 86400000)

/-! ### Runtime value shapes of heterogeneously-encoded date fields -/

/-- The closed set of JavaScript runtime values a schedule `date` field can
hold in this repository: a string, a (valid or invalid) native `Date`, a
Firestore `Timestamp` (which exposes both a `toDate()` accessor and a raw
`seconds` field), a plain object exposing only a raw `seconds` field, a
number, a boolean, `null`, or `undefined`. -/
inductive DateField where
  | strD (s : String)
  | dateD (ms : Int)
  | invalidDateD
  | tsD (seconds : Int)
  | secondsOnly (seconds : Int)
  | numD (n : Int)
  | boolD (b : Bool)
  | nullD
  | undefD
deriving DecidableEq, Repr

/-- The date portion before the first `"T"`, as computed by the source's
`dateValue.split("T")[0]`. -/
def datePartOf (s : String) : String :=
  (jsSplit 'T' s).headD ""

/-- Embedding of `parseDateToISO` (src/unnamed/part_000 lines 544-575).
A string whose pre-`"T"` portion splits on `"-"` into exactly three parts is
returned verbatim; otherwise the string goes through `new Date(...)` and, if
that yields a valid instant, its ISO date part is returned.  A native valid
`Date` and a `toDate`-bearing timestamp are converted via `toISOString`; an
invalid `Date` makes `toISOString` throw, which the source catches and turns
into `null`.  Everything else returns `null`. -/
def parseDateToISO : DateField → Option String
  | .strD s =>
      let datePart := datePartOf s
      if (jsSplit '-' datePart).length == 3 then
        some datePart
      else
        match jsDateParseMs s with
        | some ms => some (msToISODate ms)
        | none => none
  | .dateD ms => some (msToISODate ms)
  | .invalidDateD => none
  | .tsD seconds => some (msToISODate (seconds * 1000))
  | .secondsOnly _ => none
  | .numD _ => none
  | .boolD _ => none
  | .nullD => none
  | .undefD => none

/-! ### Entities (adapted record shapes, §3 of the repository's data model) -/

/-- An enrollment record: `studentId` and `courseId` foreign keys. -/
structure Enrollment where
  id : String
  studentId : String
  courseId : String
deriving DecidableEq, Repr

/-- A module record: `courseId` is its sole link back to its course. -/
structure Module where
  id : String
  title : String
  courseId : String
deriving DecidableEq, Repr

/-- A course record as held in the dashboard's `enrolledCourses` state:
its id, display title and (possibly stale) ordered list of module ids. -/
structure Course where
  id : String
  title : String
  modules : List String
deriving DecidableEq, Repr

/-- A schedule record (fields of the source's `Schedule` interface).
`courseId` or `moduleId` may be empty when the record carries only the other
association. -/
structure Schedule where
  id : String
  moduleTitle : String
  floorNumber : String
  classroomNumber : String
  lecturerName : String
  branch : String
  startTime : String
  endTime : String
  date : DateField
  dayOfWeek : String
  isRecurring : Bool
  moduleId : String
  courseId : String
deriving DecidableEq, Repr

/-! ### Enrollment join resolver (src/unnamed/part_000 lines 243-427) -/

/-- Course ids of the student's enrollments (lines 320-323): the enrollment
collection filtered on `studentId` equality, mapped to `courseId`.
Duplicates are kept, as in the source's array. -/
def enrolledCourseIds (studentId : String) (enrollments : List Enrollment) : List String :=
  (enrollments.filter (fun e => e.studentId == studentId)).map (fun e => e.courseId)

/-- Ids of the modules whose `courseId` equals `courseId` (the per-course
module query of lines 330-336). -/
def moduleIdsForCourse (courseId : String) (modules : List Module) : List String :=
  (modules.filter (fun m => m.courseId == courseId)).map (fun m => m.id)

/-- Module ids fanned out over the student's enrolled course ids and
flattened (lines 328-341). -/
def enrolledModuleIds (studentId : String) (enrollments : List Enrollment)
    (modules : List Module) : List String :=
  ((enrolledCourseIds studentId enrollments).map
    (fun cid => moduleIdsForCourse cid modules)).flatten

/-- The date-formatting pass of lines 349-358: a field with a `toDate`
accessor (a Firestore `Timestamp`) is replaced by the `YYYY-MM-DD` part of
its `toISOString`; every other shape is kept as is. -/
def formatScheduleDate : DateField → DateField
  | .tsD seconds => .strD (msToISODate (seconds * 1000))
  | d => d

/-- Apply `formatScheduleDate` to a schedule's `date` (lines 345-366). -/
def formatSchedule (s : Schedule) : Schedule :=
  { s with date := formatScheduleDate s.date }

/-- The sort comparator's date accessor `getDateValue` (lines 391-415):
strings go through `new Date(...)` (`none` models a `NaN` instant), native
`Date`s and `toDate`-bearing timestamps yield their instant, and every other
shape (including a raw-seconds-only object) falls through to `0`. -/
def getDateValue : DateField → Option Int
  | .strD s => jsDateParseMs s
  | .dateD ms => some ms
  | .invalidDateD => none
  | .tsD seconds => some (seconds * 1000)
  | .secondsOnly _ => some 0
  | .numD _ => some 0
  | .boolD _ => some 0
  | .nullD => some 0
  | .undefD => some 0

/-- Sign model of `a.localeCompare(b)` on zero-padded `"HH:MM"` strings,
where locale collation coincides with code-unit order. -/
def strCmpInt (s t : String) : Int :=
  if s < t then -1 else if t < s then 1 else 0

/-- The schedule sort comparator (lines 389-425): compare date instants,
break ties by `startTime`.  When either instant is `NaN` the subtraction
yields `NaN`, which ECMAScript `SortCompare` coerces to `+0`. -/
def scheduleCmp (a b : Schedule) : Int :=
  match getDateValue a.date, getDateValue b.date with
  | some x, some y => if x ≠ y then x - y else strCmpInt a.startTime b.startTime
  | _, _ => 0

/-- Insert `a` into `l` before the first element `b` with `cmp a b < 0`:
the insertion step of a stable sort. -/
def insertCmp (cmp : Schedule → Schedule → Int) (a : Schedule) :
    List Schedule → List Schedule
  | [] => [a]
  | b :: bs => if cmp a b < 0 then a :: b :: bs else b :: insertCmp cmp a bs

/-- Stable insertion sort, modelling `Array.prototype.sort` with a
consistent comparator (ECMAScript sort is required to be stable). -/
def sortCmp (cmp : Schedule → Schedule → Int) (l : List Schedule) : List Schedule :=
  l.foldl (fun acc a => insertCmp cmp a acc) []

/-- The two hard-coded development schedules of lines 258-291 (dates are
the current day's ISO string). -/
def demoSchedules (today dow : String) : List Schedule :=
  [ { id := "demo1", moduleTitle := "Introduction to Programming",
      floorNumber := "2", classroomNumber := "201", lecturerName := "Dr. Smith",
      branch := "Main Campus", startTime := "09:00", endTime := "10:30",
      date := .strD today, dayOfWeek := dow, isRecurring := true,
      moduleId := "demo-module-1", courseId := "" },
    { id := "demo2", moduleTitle := "Web Development",
      floorNumber := "3", classroomNumber := "305", lecturerName := "Prof. Johnson",
      branch := "Tech Building", startTime := "11:00", endTime := "12:30",
      date := .strD today, dayOfWeek := dow, isRecurring := true,
      moduleId := "demo-module-2", courseId := "" } ]

/-- Embedding of `fetchClassSchedules` (lines 243-427), producing the list
stored by `setSchedules`.  `devMode` is `NODE_ENV === "development"`;
`today`/`dow` feed the development-only demo schedules.  An empty schedule
collection returns early (demo data in development, nothing otherwise); a
student with no enrollments returns early with nothing; otherwise the
schedule set is date-formatted, filtered to the student's enrolled course or
module ids, and sorted with `scheduleCmp`. -/
def fetchClassSchedules (devMode : Bool) (today dow : String) (studentId : String)
    (enrollments : List Enrollment) (modules : List Module)
    (schedules : List Schedule) : List Schedule :=
  if schedules.isEmpty then
    if devMode then demoSchedules today dow else []
  else if (enrollments.filter (fun e => e.studentId == studentId)).isEmpty then
    []
  else
    let eci := enrolledCourseIds studentId enrollments
    let emi := enrolledModuleIds studentId enrollments modules
    let allSchedules := schedules.map formatSchedule
    let studentSchedules := allSchedules.filter
      (fun s => eci.contains s.courseId || emi.contains s.moduleId)
    sortCmp scheduleCmp studentSchedules

/-! ### Temporal projection and placeholder policy
(src/unnamed/part_000 lines 602-664) -/

/-- The "today" filter of lines 612-636: keep schedules whose
`parseDateToISO` date equals the formatted current day (a `null` parse
compares unequal to the string and is excluded). -/
def projectToday (todayFormatted : String) (schedules : List Schedule) : List Schedule :=
  schedules.filter (fun s => parseDateToISO s.date == some todayFormatted)

/-- The synthesized placeholder class of lines 643-656. -/
def demoClass (todayFormatted dow : String) (firstCourse : Course) : Schedule :=
  { id := "today-demo", moduleTitle := firstCourse.title,
    floorNumber := "1", classroomNumber := "101", lecturerName := "Dr. Demo",
    branch := "Main Campus", startTime := "10:00", endTime := "11:30",
    date := .strD todayFormatted, dayOfWeek := dow, isRecurring := false,
    moduleId := firstCourse.modules.headD "", courseId := "" }

/-- Comparator of the dashboard's final `startTime` sort (lines 662-664). -/
def startTimeCmp (a b : Schedule) : Int :=
  strCmpInt a.startTime b.startTime

/-- The dashboard's `todaysClasses` pipeline (lines 602-664): project to
today, synthesize the placeholder when the projection is empty but the
student has enrolled courses, then sort by `startTime`. -/
def todaysClassesFinal (todayFormatted dow : String) (enrolledCourses : List Course)
    (schedules : List Schedule) : List Schedule :=
  let t := projectToday todayFormatted schedules
  let t :=
    match t, enrolledCourses with
    | [], c :: _ => [demoClass todayFormatted dow c]
    | t, _ => t
  sortCmp startTimeCmp t

/-! ### Module discovery (src/unnamed/part_001 lines 248-319) -/

/-- Embedding of `fetchModules`, producing the list stored by `setModules`.
For a student viewing a course, the module set is filtered on `courseId`;
when nothing matches, ALL modules are returned instead — with no indicator
in the returned value that this fallback fired.  (`viewingCourseId` is
truthy in the source exactly when it is a nonempty string.) -/
def fetchModules (role : String) (viewingCourseId : String)
    (allModules : List Module) : List Module :=
  if role == "student" && viewingCourseId != "" then
    let filteredModules := allModules.filter (fun m => m.courseId == viewingCourseId)
    if filteredModules.isEmpty then allModules else filteredModules
  else allModules

/-- Modelled from the spec (§4.5): the module-discovery contract as the spec
words it — a tagged result whose flag reports whether the all-modules
fallback fired.  Used only to compare the source's untagged return value
against the spec's tagged one. -/
def modulesForCourseSpec (courseId : String) (modules : List Module) :
    List Module × Bool :=
  let filtered := modules.filter (fun m => m.courseId == courseId)
  if filtered.isEmpty then (modules, true) else (filtered, false)

/-! ### Materials lookup (src/unnamed/part_001 lines 322-378) -/

/-- The closed set of runtime values a raw material timestamp field can
hold: absent/`null` (falsy), a Firestore `Timestamp` (with `toDate` and
`seconds`), a valid native `Date`, a plain object with only a numeric
`seconds` field, or some other truthy value of unrecognized shape (string,
nonzero number, other object). -/
inductive TSVal where
  | missing
  | tsTimestamp (seconds : Int)
  | jsDate (ms : Int)
  | secondsObj (seconds : Int)
  | other
deriving DecidableEq, Repr

/-- Embedding of `processTimestamp` (src/unnamed/part_001 lines 342-352),
returning the instant (epoch ms) of the resulting `Date`.  A falsy input
yields `new Date()` — the current time `now`.  A `toDate`-bearing timestamp
and a native `Date` keep their instant.  An object whose `seconds` field is
truthy (nonzero) yields `seconds * 1000`; a zero `seconds` field is falsy
and falls through to the current time, as does every other shape. -/
def processTimestamp (now : Int) : TSVal → Int
  | .missing => now
  | .tsTimestamp seconds => seconds * 1000
  | .jsDate ms => ms
  | .secondsObj seconds => if seconds ≠ 0 then seconds * 1000 else now
  | .other => now

/-- JavaScript `a || b` on an optional string field, where the empty string
is falsy. -/
def jsOrStr (a : Option String) (b : String) : String :=
  match a with
  | some s => if s == "" then b else s
  | none => b

/-- JavaScript `a || b` on an optional numeric field, where `0` is falsy. -/
def jsOrInt (a : Option Int) (b : Int) : Int :=
  match a with
  | some n => if n ≠ 0 then n else b
  | none => b

/-- JavaScript `a || b` on a raw timestamp field: only an absent/`null`
field is falsy (every `TSVal` shape other than `missing` is an object or
other truthy value). -/
def tsOrElse (a b : TSVal) : TSVal :=
  match a with
  | .missing => b
  | v => v

/-- A raw material document as stored: every field may be absent, and
legacy records use `name`, `size` and `uploadedAt`. -/
structure RawMaterial where
  moduleId : Option String
  title : Option String
  name : Option String
  description : Option String
  fileUrl : Option String
  fileName : Option String
  fileType : Option String
  fileSize : Option Int
  size : Option Int
  uploadedBy : Option String
  createdAt : TSVal
  updatedAt : TSVal
  uploadedAt : TSVal
deriving DecidableEq, Repr

/-- The adapted material shape delivered to the UI; `createdAt`/`updatedAt`
are instants (epoch ms) of always-valid `Date`s. -/
structure Material where
  id : String
  moduleId : String
  title : String
  description : String
  fileUrl : String
  fileName : String
  fileType : String
  fileSize : Int
  uploadedBy : String
  createdAt : Int
  updatedAt : Int
deriving DecidableEq, Repr

/-- The field-name reconciliation of src/unnamed/part_001 lines 354-368,
mapping a raw document (with id `docId`, fetched for `queryModuleId`) to the
adapted material. -/
def adaptMaterial (now : Int) (docId queryModuleId : String) (d : RawMaterial) :
    Material :=
  { id := docId
    moduleId := jsOrStr d.moduleId queryModuleId
    title := jsOrStr d.title (jsOrStr d.name "Untitled")
    description := jsOrStr d.description ""
    fileUrl := jsOrStr d.fileUrl ""
    fileName := jsOrStr d.fileName (jsOrStr d.name (jsOrStr d.fileUrl "Unknown file"))
    fileType := jsOrStr d.fileType "application/octet-stream"
    fileSize := jsOrInt d.fileSize (jsOrInt d.size 0)
    uploadedBy := jsOrStr d.uploadedBy ""
    createdAt := processTimestamp now (tsOrElse d.createdAt d.uploadedAt)
    updatedAt := processTimestamp now (tsOrElse d.updatedAt d.uploadedAt) }

/-- Embedding of `fetchMaterials` (src/unnamed/part_001 lines 322-378),
producing the list stored by `setMaterials`.  The store query keeps the raw
documents whose `moduleId` field equals the requested id; each is adapted
with `adaptMaterial`.  (`now` is the wall-clock time of the read.) -/
def fetchMaterials (now : Int) (moduleId : String)
    (store : List (String × RawMaterial)) : List Material :=
  (store.filter (fun p => p.2.moduleId == some moduleId)).map
    (fun p => adaptMaterial now p.1 moduleId p.2)

/-! ### General lemmas about the insertion sort -/

theorem mem_insertCmp (cmp : Schedule → Schedule → Int) (a x : Schedule)
    (l : List Schedule) : x ∈ insertCmp cmp a l ↔ x = a ∨ x ∈ l := by
  induction l with
  | nil => simp [insertCmp]
  | cons b bs ih =>
    simp only [insertCmp]
    by_cases h : cmp a b < 0
    · simp only [if_pos h, List.mem_cons]
    · simp only [if_neg h, List.mem_cons, ih]
      tauto

theorem mem_foldl_insertCmp (cmp : Schedule → Schedule → Int)
    (l : List Schedule) (acc : List Schedule) (x : Schedule) :
    x ∈ l.foldl (fun acc a => insertCmp cmp a acc) acc ↔ x ∈ acc ∨ x ∈ l := by
  induction l generalizing acc with
  | nil => simp
  | cons b bs ih =>
    simp only [List.foldl_cons, ih, mem_insertCmp, List.mem_cons]
    tauto

theorem mem_sortCmp (cmp : Schedule → Schedule → Int) (l : List Schedule)
    (x : Schedule) : x ∈ sortCmp cmp l ↔ x ∈ l := by
  simp [sortCmp, mem_foldl_insertCmp]

theorem map_formatSchedule_id {l : List Schedule}
    (h : ∀ u ∈ l, formatSchedule u = u) : l.map formatSchedule = l := by
  induction l with
  | nil => rfl
  | cons a as ih =>
    rw [List.map_cons, h a (by simp), ih (fun u hu => h u (List.mem_cons_of_mem _ hu))]

/-! ### Claim C1: membership in the effective schedule list -/

/-- C1.  For every student identifier and collections of enrollments,
modules, and schedules (whose dates are not in the `toDate`-formatting
shape, so the formatting pass is the identity), a schedule of the schedule
collection appears in the student's effective schedule list (the list stored
by `fetchClassSchedules`) if and only if its `courseId` is among the
student's enrolled course ids or its `moduleId` is among the student's
enrolled module ids. -/
theorem effectiveSchedule_mem_iff (devMode : Bool) (today dow studentId : String)
    (enrollments : List Enrollment) (modules : List Module)
    (schedules : List Schedule) (s : Schedule)
    (hfmt : ∀ u ∈ schedules, formatSchedule u = u) (hs : s ∈ schedules) :
    s ∈ fetchClassSchedules devMode today dow studentId enrollments modules schedules ↔
      (s.courseId ∈ enrolledCourseIds studentId enrollments ∨
       s.moduleId ∈ enrolledModuleIds studentId enrollments modules) := by
  have hne : schedules.isEmpty = false := by
    cases schedules with
    | nil => cases hs
    | cons a as => rfl
  unfold fetchClassSchedules
  simp only [hne, Bool.false_eq_true, if_false]
  by_cases hemp : (enrollments.filter (fun e => e.studentId == studentId)).isEmpty
  · have hnil : enrollments.filter (fun e => e.studentId == studentId) = [] :=
      List.isEmpty_iff.mp hemp
    simp [hemp, enrolledCourseIds, enrolledModuleIds, hnil]
  · rw [Bool.not_eq_true] at hemp
    simp only [hemp, Bool.false_eq_true, if_false]
    rw [map_formatSchedule_id hfmt, mem_sortCmp, List.mem_filter]
    simp [hs]

/-- The scenario enrollment of §8: student `s1` enrolled in course `c1`. -/
def enrS1C1 : Enrollment := { id := "e1", studentId := "s1", courseId := "c1" }

/-- The scenario module of §8: module `m1` belonging to course `c1`. -/
def modM1 : Module := { id := "m1", title := "Module 1", courseId := "c1" }

/-- The scenario schedule `sch1`, associated via `moduleId = "m1"`. -/
def sch1 : Schedule :=
  { id := "sch1", moduleTitle := "", floorNumber := "", classroomNumber := "",
    lecturerName := "", branch := "", startTime := "09:00", endTime := "10:00",
    date := .strD "2024-03-10", dayOfWeek := "", isRecurring := false,
    moduleId := "m1", courseId := "" }

/-- The scenario schedule `sch2`, associated via `courseId = "c9"`, a course
the student is not enrolled in. -/
def sch2 : Schedule :=
  { id := "sch2", moduleTitle := "", floorNumber := "", classroomNumber := "",
    lecturerName := "", branch := "", startTime := "08:00", endTime := "09:00",
    date := .strD "2024-03-10", dayOfWeek := "", isRecurring := false,
    moduleId := "", courseId := "c9" }

/-- C1 witness: in the §8 scenario, `sch1` appears in the resolved effective
schedule list and `sch2` does not. -/
theorem effectiveSchedule_mem_iff_witness :
    sch1 ∈ fetchClassSchedules false "2024-03-10" "Sunday" "s1"
      [enrS1C1] [modM1] [sch1, sch2] ∧
    sch2 ∉ fetchClassSchedules false "2024-03-10" "Sunday" "s1"
      [enrS1C1] [modM1] [sch1, sch2] := by
  constructor
  · exact (effectiveSchedule_mem_iff false "2024-03-10" "Sunday" "s1"
      [enrS1C1] [modM1] [sch1, sch2] sch1 (by decide) (by decide)).mpr (by decide)
  · intro h
    exact absurd ((effectiveSchedule_mem_iff false "2024-03-10" "Sunday" "s1"
      [enrS1C1] [modM1] [sch1, sch2] sch2 (by decide) (by decide)).mp h) (by decide)

/-! ### Claim C9: join monotonicity -/

/-- C9.  Adding one enrollment of the student for a course to the enrollment
collection can only add elements to — never remove elements from — the
student's enrolled course ids, enrolled module ids and effective schedule
list. -/
theorem enrollment_join_monotone (devMode : Bool) (today dow studentId : String)
    (enrollments : List Enrollment) (modules : List Module)
    (schedules : List Schedule) (e : Enrollment) (he : e.studentId = studentId) :
    (∀ x, x ∈ enrolledCourseIds studentId enrollments →
        x ∈ enrolledCourseIds studentId (enrollments ++ [e])) ∧
    (∀ x, x ∈ enrolledModuleIds studentId enrollments modules →
        x ∈ enrolledModuleIds studentId (enrollments ++ [e]) modules) ∧
    (∀ s, s ∈ fetchClassSchedules devMode today dow studentId
            enrollments modules schedules →
        s ∈ fetchClassSchedules devMode today dow studentId
            (enrollments ++ [e]) modules schedules) := by
  have hc : ∀ x, x ∈ enrolledCourseIds studentId enrollments →
      x ∈ enrolledCourseIds studentId (enrollments ++ [e]) := by
    intro x hx
    unfold enrolledCourseIds at hx ⊢
    rw [List.filter_append, List.map_append]
    exact List.mem_append_left _ hx
  have hm : ∀ x, x ∈ enrolledModuleIds studentId enrollments modules →
      x ∈ enrolledModuleIds studentId (enrollments ++ [e]) modules := by
    intro x hx
    unfold enrolledModuleIds enrolledCourseIds at hx ⊢
    rw [List.filter_append, List.map_append, List.map_append, List.flatten_append]
    exact List.mem_append_left _ hx
  refine ⟨hc, hm, ?_⟩
  intro s hsmem
  by_cases hemp : schedules.isEmpty
  · unfold fetchClassSchedules at hsmem ⊢
    simp only [hemp, if_true] at hsmem ⊢
    exact hsmem
  · rw [Bool.not_eq_true] at hemp
    unfold fetchClassSchedules at hsmem ⊢
    simp only [hemp, Bool.false_eq_true, if_false] at hsmem ⊢
    by_cases h1 : (enrollments.filter (fun e => e.studentId == studentId)).isEmpty
    · simp [h1] at hsmem
    · rw [Bool.not_eq_true] at h1
      have h1ne : enrollments.filter (fun e => e.studentId == studentId) ≠ [] :=
        List.isEmpty_eq_false.mp h1
      have h2 : ((enrollments ++ [e]).filter
          (fun e => e.studentId == studentId)).isEmpty = false := by
        rw [List.filter_append]
        refine List.isEmpty_eq_false.mpr (fun hcontra => ?_)
        exact h1ne (List.append_eq_nil.mp hcontra).1
      simp only [h1, h2, Bool.false_eq_true, if_false] at hsmem ⊢
      rw [mem_sortCmp, List.mem_filter] at hsmem ⊢
      obtain ⟨hmem, hpred⟩ := hsmem
      refine ⟨hmem, ?_⟩
      simp only [Bool.or_eq_true, List.elem_eq_mem, decide_eq_true_eq] at hpred ⊢
      rcases hpred with h | h
      · exact Or.inl (hc _ h)
      · exact Or.inr (hm _ h)

/-- A second enrollment of student `s1`, for course `c2`. -/
def enrS1C2 : Enrollment := { id := "e2", studentId := "s1", courseId := "c2" }

/-- C9 witness: at the §8 scenario, adding an enrollment for `c2` keeps
`c1` among the enrolled course ids, `m1` among the enrolled module ids, and
`sch1` in the effective schedule list. -/
theorem enrollment_join_monotone_witness :
    "c1" ∈ enrolledCourseIds "s1" ([enrS1C1] ++ [enrS1C2]) ∧
    "m1" ∈ enrolledModuleIds "s1" ([enrS1C1] ++ [enrS1C2]) [modM1] ∧
    sch1 ∈ fetchClassSchedules false "2024-03-10" "Sunday" "s1"
      ([enrS1C1] ++ [enrS1C2]) [modM1] [sch1, sch2] := by
  refine ⟨?_, ?_, ?_⟩
  · exact (enrollment_join_monotone false "2024-03-10" "Sunday" "s1"
      [enrS1C1] [modM1] [sch1, sch2] enrS1C2 rfl).1 "c1" (by decide)
  · exact (enrollment_join_monotone false "2024-03-10" "Sunday" "s1"
      [enrS1C1] [modM1] [sch1, sch2] enrS1C2 rfl).2.1 "m1" (by decide)
  · exact (enrollment_join_monotone false "2024-03-10" "Sunday" "s1"
      [enrS1C1] [modM1] [sch1, sch2] enrS1C2 rfl).2.2 sch1 (by decide)

/-! ### Claim C6: orphan exclusion -/

/-- An enrollment of student `s1` for the nonexistent course `cx`. -/
def enrS1Cx : Enrollment := { id := "e1", studentId := "s1", courseId := "cx" }

/-- A module whose `courseId` references the nonexistent course `cx`. -/
def modOrphan : Module := { id := "m1", title := "Module 1", courseId := "cx" }

/-- The only course of the C6 course set. -/
def courseC1 : Course := { id := "c1", title := "Course 1", modules := [] }

/-- C6 counterexample: with course set `[courseC1]`, enrollment set
`[enrS1Cx]` and module set `[modOrphan]`, the module's `courseId` (`"cx"`)
matches no course in the course set, yet its id `"m1"` appears in the
resolved `enrolledModuleIds` — the join never consults the course
collection, so an enrollment for a nonexistent course pulls in the orphan
module.  This refutes the claim as stated. -/
theorem orphan_module_reaches_enrolledModuleIds :
    ([courseC1].all fun c => c.id != modOrphan.courseId) = true ∧
    modOrphan ∈ ([modOrphan] : List Module) ∧
    modOrphan.id ∈ enrolledModuleIds "s1" [enrS1Cx] [modOrphan] := by decide

/-- C6 amended.  A module id appears in `enrolledModuleIds` only through a
module of the module set whose `courseId` equals some courseId of the
student's enrollments; hence a module whose `courseId` matches no enrolled
course id never appears (the course set itself plays no role in the
computation). -/
theorem enrolledModuleIds_only_from_enrolled_courses
    (studentId : String) (enrollments : List Enrollment) (modules : List Module)
    (x : String) (hx : x ∈ enrolledModuleIds studentId enrollments modules) :
    ∃ m, m ∈ modules ∧ m.id = x ∧
      m.courseId ∈ enrolledCourseIds studentId enrollments := by
  unfold enrolledModuleIds at hx
  rw [List.mem_flatten] at hx
  obtain ⟨l, hl, hxl⟩ := hx
  rw [List.mem_map] at hl
  obtain ⟨cid, hcid, rfl⟩ := hl
  unfold moduleIdsForCourse at hxl
  rw [List.mem_map] at hxl
  obtain ⟨m, hm, rfl⟩ := hxl
  rw [List.mem_filter] at hm
  have hceq : m.courseId = cid := by simpa using hm.2
  exact ⟨m, hm.1, rfl, hceq ▸ hcid⟩

/-- C6 amended witness: the orphan module of the counterexample is reached
exactly through the enrollment's (dangling) course id `cx`. -/
theorem enrolledModuleIds_only_from_enrolled_courses_witness :
    ∃ m, m ∈ ([modOrphan] : List Module) ∧ m.id = "m1" ∧
      m.courseId ∈ enrolledCourseIds "s1" [enrS1Cx] :=
  enrolledModuleIds_only_from_enrolled_courses "s1" [enrS1Cx] [modOrphan] "m1"
    (by decide)

/-! ### Claim C7: module-discovery fallback and its (absent) status flag -/

/-- A module belonging to course `c2`. -/
def modOfC2 : Module := { id := "m1", title := "Module 1", courseId := "c2" }

/-- C7 counterexample: for the module set `[modOfC2]`, requesting course
`c1` fires the all-modules fallback (the spec-worded tagged contract reports
`usedFallback = true`) while requesting course `c2` does not
(`usedFallback = false`), yet `fetchModules` returns the very same bare list
in both cases — the returned value carries no status flag, so the caller
cannot be informed that the fallback fired.  This refutes the claim as
stated. -/
theorem fetchModules_fallback_indistinguishable :
    fetchModules "student" "c1" [modOfC2] = fetchModules "student" "c2" [modOfC2] ∧
    (modulesForCourseSpec "c1" [modOfC2]).2 = true ∧
    (modulesForCourseSpec "c2" [modOfC2]).2 = false := by decide

/-- C7 amended.  When a student's course-filtered module lookup matches
nothing, `fetchModules` returns all modules as a fallback; when it matches,
the filtered list is returned.  The result is a bare module list either
way: no status flag informs the caller that the fallback fired. -/
theorem fetchModules_fallback_behavior (viewingCourseId : String)
    (allModules : List Module) (hne : viewingCourseId ≠ "") :
    ((allModules.filter (fun m => m.courseId == viewingCourseId)) = [] →
      fetchModules "student" viewingCourseId allModules = allModules) ∧
    (∀ l, allModules.filter (fun m => m.courseId == viewingCourseId) = l → l ≠ [] →
      fetchModules "student" viewingCourseId allModules = l) := by
  constructor
  · intro hfil
    unfold fetchModules
    simp [hfil, hne]
  · intro l hl hlne
    unfold fetchModules
    simp [hne, hl, hlne]

/-- C7 amended witness: a firing fallback returns the whole module set, and
a matching filter returns the filtered set. -/
theorem fetchModules_fallback_behavior_witness :
    fetchModules "student" "c1" [modOfC2] = [modOfC2] ∧
    fetchModules "student" "c2" [modOfC2] = [modOfC2] := by
  constructor
  · exact (fetchModules_fallback_behavior "c1" [modOfC2] (by decide)).1 (by decide)
  · exact (fetchModules_fallback_behavior "c2" [modOfC2] (by decide)).2
      [modOfC2] (by decide) (by decide)

/-! ### Claim C3: normalizer totality -/

/-- C3.  The date normalizer is a total function (`parseDateToISO` is a
Lean function into `Option String`, so it is defined — and raises nothing —
on every value of the closed input type); in particular it returns `null`
for the empty string, for a bare numeric epoch value without a unit marker,
and for the unsupported boolean, `null` and `undefined` input types. -/
theorem parseDateToISO_total_null_cases :
    parseDateToISO (.strD "") = none ∧
    (∀ n : Int, parseDateToISO (.numD n) = none) ∧
    (∀ b : Bool, parseDateToISO (.boolD b) = none) ∧
    parseDateToISO .nullD = none ∧
    parseDateToISO .undefD = none :=
  ⟨by decide, fun _ => rfl, fun _ => rfl, rfl, rfl⟩

/-! ### Claim C4: null on parse failure, and the unvalidated string branch -/

/-- C4 counterexample: the string branch of `parseDateToISO` returns any
string whose pre-`"T"` portion has exactly three `"-"`-separated parts
verbatim, with no calendar validation: `"2024-13-99"` is not a valid
calendar date (month 13, day 99), and `"not-a-date"` parses under no
supported shape, yet both come back non-`null`.  This refutes the claim as
stated. -/
theorem parseDateToISO_invalid_calendar_non_null :
    parseDateToISO (.strD "2024-13-99") = some "2024-13-99" ∧
    parseYMDString "2024-13-99" = none ∧
    parseDateToISO (.strD "not-a-date") = some "not-a-date" := by decide

/-- C4 amended.  `parseDateToISO` never throws (it is total), and returns
`null` for every input that reaches no accepted branch: strings whose
pre-`"T"` portion does not split into three `"-"`-separated parts and that
`new Date` cannot parse, raw-seconds-only wrapper objects, numbers, invalid
`Date` instances, booleans, `null` and `undefined`.  However, a string whose
pre-`"T"` portion does split into three `"-"`-separated parts is returned
verbatim without calendar validation, so an invalid calendar date in that
shape yields a non-`null` result. -/
theorem parseDateToISO_failure_policy :
    (∀ s : String, (jsSplit '-' (datePartOf s)).length = 3 →
        parseDateToISO (.strD s) = some (datePartOf s)) ∧
    (∀ s : String, (jsSplit '-' (datePartOf s)).length ≠ 3 → jsDateParseMs s = none →
        parseDateToISO (.strD s) = none) ∧
    (∀ k : Int, parseDateToISO (.secondsOnly k) = none) ∧
    (∀ n : Int, parseDateToISO (.numD n) = none) ∧
    (∀ b : Bool, parseDateToISO (.boolD b) = none) ∧
    parseDateToISO .invalidDateD = none ∧
    parseDateToISO .nullD = none ∧
    parseDateToISO .undefD = none := by
  refine ⟨?_, ?_, fun _ => rfl, fun _ => rfl, fun _ => rfl, rfl, rfl, rfl⟩
  · intro s h3
    unfold parseDateToISO
    simp [datePartOf] at h3 ⊢
    simp [h3]
  · intro s h3 hjs
    unfold parseDateToISO
    simp [datePartOf] at h3 ⊢
    simp [h3, hjs]

/-- C4 amended witness: a three-part date string comes back verbatim and an
unparsable garbage string yields `null`. -/
theorem parseDateToISO_failure_policy_witness :
    parseDateToISO (.strD "2024-03-10") = some "2024-03-10" ∧
    parseDateToISO (.strD "garbage") = none := by
  constructor
  · have h := parseDateToISO_failure_policy.1 "2024-03-10" (by decide)
    exact (by decide : datePartOf "2024-03-10" = "2024-03-10") ▸ h
  · exact parseDateToISO_failure_policy.2.1 "garbage" (by decide) (by decide)

/-! ### Claim C5: timestamp-wrapper normalization and "today" matching -/

/-- A schedule whose `date` is a `toDate`-bearing timestamp for epoch
seconds 1710028800 (2024-03-10T00:00:00Z). -/
def schTs : Schedule :=
  { id := "schTs", moduleTitle := "", floorNumber := "", classroomNumber := "",
    lecturerName := "", branch := "", startTime := "10:00", endTime := "11:00",
    date := .tsD 1710028800, dayOfWeek := "", isRecurring := false,
    moduleId := "m1", courseId := "" }

/-- A schedule whose `date` is a raw-seconds-only wrapper (no `toDate`
accessor) for the same instant. -/
def schSecondsOnly : Schedule :=
  { id := "schSec", moduleTitle := "", floorNumber := "", classroomNumber := "",
    lecturerName := "", branch := "", startTime := "10:00", endTime := "11:00",
    date := .secondsOnly 1710028800, dayOfWeek := "", isRecurring := false,
    moduleId := "m1", courseId := "" }

/-- C5 counterexample: a timestamp-wrapper exposing only the raw
epoch-seconds field 1710028800 normalizes to `null`, not to `"2024-03-10"`
(`parseDateToISO` consults only the `toDate` accessor, never the `seconds`
field), so it cannot match the string-encoded `"2024-03-10"` schedule under
equality-based "today" filtering.  This refutes the claim as stated. -/
theorem secondsOnly_wrapper_not_normalized :
    parseDateToISO (.secondsOnly 1710028800) = none ∧
    parseDateToISO (.strD "2024-03-10") = some "2024-03-10" ∧
    projectToday "2024-03-10" [schSecondsOnly] = [] := by decide

/-- C5 amended.  A timestamp-wrapper exposing the `toDate` conversion
accessor with epoch seconds 1710028800 normalizes to `"2024-03-10"`, equal
to what the string-encoded `"2024-03-10"` normalizes to, so both match
under equality-based "today" filtering; a wrapper exposing only the raw
epoch-seconds field normalizes to `null` and is excluded. -/
theorem tsWrapper_normalizes_and_matches_today :
    parseDateToISO (.tsD 1710028800) = some "2024-03-10" ∧
    parseDateToISO (.strD "2024-03-10") = some "2024-03-10" ∧
    projectToday "2024-03-10" [schTs, sch1] = [schTs, sch1] ∧
    projectToday "2024-03-10" [schSecondsOnly] = [] := by decide

/-! ### Claim C8: placeholder synthesis policy -/

/-- C8.  If the "today" projection is empty while the student has at least
one enrolled course, the dashboard shows exactly the one synthesized
placeholder, whose id is the fixed sentinel `"today-demo"` (no store
document is ever read into it — it is built in memory from the first
enrolled course); if the projection is non-empty, the shown list has exactly
the projection's members (nothing synthesized); and with no enrolled
courses an empty projection stays empty. -/
theorem todaysClasses_placeholder_policy (today dow : String)
    (enrolledCourses : List Course) (schedules : List Schedule) :
    (projectToday today schedules = [] → ∀ c cs, enrolledCourses = c :: cs →
        todaysClassesFinal today dow enrolledCourses schedules =
          [demoClass today dow c] ∧ (demoClass today dow c).id = "today-demo") ∧
    (projectToday today schedules ≠ [] → ∀ x,
        x ∈ todaysClassesFinal today dow enrolledCourses schedules ↔
          x ∈ projectToday today schedules) ∧
    (enrolledCourses = [] → projectToday today schedules = [] →
        todaysClassesFinal today dow enrolledCourses schedules = []) := by
  refine ⟨?_, ?_, ?_⟩
  · intro hproj c cs hcourses
    subst hcourses
    unfold todaysClassesFinal
    rw [hproj]
    exact ⟨rfl, rfl⟩
  · intro hproj x
    unfold todaysClassesFinal
    cases hp : projectToday today schedules with
    | nil => exact absurd hp hproj
    | cons a as =>
      cases enrolledCourses with
      | nil => rw [mem_sortCmp]
      | cons c cs => rw [mem_sortCmp]
  · intro hcourses hproj
    subst hcourses
    unfold todaysClassesFinal
    rw [hproj]
    rfl

/-- C8 witness: with one enrolled course and no schedule today, the
dashboard list is exactly the placeholder; with a schedule today, that
schedule is shown; with no enrolled courses and nothing today, the list
stays empty. -/
theorem todaysClasses_placeholder_policy_witness :
    todaysClassesFinal "2024-03-10" "Sunday" [courseC1] [] =
      [demoClass "2024-03-10" "Sunday" courseC1] ∧
    sch1 ∈ todaysClassesFinal "2024-03-10" "Sunday" [courseC1] [sch1] ∧
    todaysClassesFinal "2024-03-10" "Sunday" [] [] = [] := by
  refine ⟨?_, ?_, ?_⟩
  · exact ((todaysClasses_placeholder_policy "2024-03-10" "Sunday" [courseC1] []).1
      (by decide) courseC1 [] rfl).1
  · exact ((todaysClasses_placeholder_policy "2024-03-10" "Sunday" [courseC1] [sch1]).2.1
      (by decide) sch1).mpr (by decide)
  · exact (todaysClasses_placeholder_policy "2024-03-10" "Sunday" [] []).2.2 rfl (by decide)

/-! ### Claim C10: material timestamps always valid, current-time fallback -/

/-- Is this raw timestamp shape one that `processTimestamp` converts to its
own instant (as opposed to replacing it with the current time)? -/
def tsRecognized : TSVal → Bool
  | .tsTimestamp _ => true
  | .jsDate _ => true
  | .secondsObj seconds => seconds != 0
  | _ => false

/-- C10.  Every material delivered by the materials lookup carries definite
(integer-instant, hence valid and non-null) `createdAt`/`updatedAt` values:
each comes from `processTimestamp` applied to the record's raw field (with
the legacy `uploadedAt` fallback), and whenever that raw field is missing or
of unrecognized shape (or carries the falsy seconds value `0`) the result is
silently the current time of the read — not `null` and not an error — unlike
`parseDateToISO`'s null-on-failure contract for schedule dates. -/
theorem fetchMaterials_timestamp_policy (now : Int) (moduleId : String)
    (store : List (String × RawMaterial)) (m : Material)
    (hm : m ∈ fetchMaterials now moduleId store) :
    ∃ p, p ∈ store ∧ m = adaptMaterial now p.1 moduleId p.2 ∧
      m.createdAt = processTimestamp now (tsOrElse p.2.createdAt p.2.uploadedAt) ∧
      m.updatedAt = processTimestamp now (tsOrElse p.2.updatedAt p.2.uploadedAt) ∧
      (tsRecognized (tsOrElse p.2.createdAt p.2.uploadedAt) = false →
        m.createdAt = now) ∧
      (tsRecognized (tsOrElse p.2.updatedAt p.2.uploadedAt) = false →
        m.updatedAt = now) := by
  unfold fetchMaterials at hm
  rw [List.mem_map] at hm
  obtain ⟨p, hp, rfl⟩ := hm
  rw [List.mem_filter] at hp
  have hfall : ∀ v : TSVal, tsRecognized v = false → processTimestamp now v = now := by
    intro v hv
    cases v with
    | missing => rfl
    | tsTimestamp s => cases hv
    | jsDate ms => cases hv
    | secondsObj s =>
      simp only [tsRecognized, bne_eq_false_iff_eq] at hv
      simp [processTimestamp, hv]
    | other => rfl
  exact ⟨p, hp.1, rfl, rfl, rfl,
    fun h => hfall _ h, fun h => hfall _ h⟩

/-- A raw material document with no timestamp fields at all. -/
def rawNoTs : RawMaterial :=
  { moduleId := some "m1", title := some "Slides", name := none,
    description := none, fileUrl := none, fileName := none, fileType := none,
    fileSize := none, size := none, uploadedBy := none,
    createdAt := .missing, updatedAt := .missing, uploadedAt := .missing }

/-- C10 witness: a material with no raw timestamps gets the read time `7`
as both `createdAt` and `updatedAt`. -/
theorem fetchMaterials_timestamp_policy_witness :
    ∃ p, p ∈ [("mat1", rawNoTs)] ∧
      adaptMaterial 7 "mat1" "m1" rawNoTs = adaptMaterial 7 p.1 "m1" p.2 ∧
      (adaptMaterial 7 "mat1" "m1" rawNoTs).createdAt =
        processTimestamp 7 (tsOrElse p.2.createdAt p.2.uploadedAt) ∧
      (adaptMaterial 7 "mat1" "m1" rawNoTs).updatedAt =
        processTimestamp 7 (tsOrElse p.2.updatedAt p.2.uploadedAt) ∧
      (tsRecognized (tsOrElse p.2.createdAt p.2.uploadedAt) = false →
        (adaptMaterial 7 "mat1" "m1" rawNoTs).createdAt = 7) ∧
      (tsRecognized (tsOrElse p.2.updatedAt p.2.uploadedAt) = false →
        (adaptMaterial 7 "mat1" "m1" rawNoTs).updatedAt = 7) :=
  fetchMaterials_timestamp_policy 7 "m1" [("mat1", rawNoTs)]
    (adaptMaterial 7 "mat1" "m1" rawNoTs) (by decide)

/-! ### Claim C2: the chronological sort -/

theorem strCmpInt_neg_iff (s t : String) : strCmpInt s t < 0 ↔ s < t := by
  unfold strCmpInt
  by_cases h1 : s < t
  · rw [if_pos h1]
    exact iff_of_true (by decide) h1
  · by_cases h2 : t < s
    · rw [if_neg h1, if_pos h2]
      exact iff_of_false (by decide) h1
    · rw [if_neg h1, if_neg h2]
      exact iff_of_false (by decide) h1

theorem strCmpInt_nonpos_iff (s t : String) : strCmpInt s t ≤ 0 ↔ s ≤ t := by
  unfold strCmpInt
  by_cases h1 : s < t
  · rw [if_pos h1]
    exact iff_of_true (by decide) (le_of_lt h1)
  · by_cases h2 : t < s
    · rw [if_neg h1, if_pos h2]
      exact iff_of_false (by decide) (not_le.mpr h2)
    · rw [if_neg h1, if_neg h2]
      exact iff_of_true le_rfl (le_of_not_lt h2)

/-- Reduction of the comparator on two definite instants. -/
theorem scheduleCmp_eq_of_some {a b : Schedule} {x y : Int}
    (hx : getDateValue a.date = some x) (hy : getDateValue b.date = some y) :
    scheduleCmp a b =
      if x ≠ y then x - y else strCmpInt a.startTime b.startTime := by
  unfold scheduleCmp
  rw [hx, hy]

/-- On schedules whose dates both produce definite instants, a comparator
outcome `¬(cmp a b < 0)` forces `cmp b a ≤ 0`. -/
theorem scheduleCmp_flip {a b : Schedule} (ha : (getDateValue a.date).isSome)
    (hb : (getDateValue b.date).isSome) (h : ¬ scheduleCmp a b < 0) :
    scheduleCmp b a ≤ 0 := by
  obtain ⟨x, hx⟩ := Option.isSome_iff_exists.mp ha
  obtain ⟨y, hy⟩ := Option.isSome_iff_exists.mp hb
  rw [scheduleCmp_eq_of_some hx hy] at h
  rw [scheduleCmp_eq_of_some hy hx]
  by_cases hxy : x = y
  · subst hxy
    rw [if_neg (fun hc : x ≠ x => hc rfl)] at h ⊢
    rw [strCmpInt_neg_iff] at h
    rw [strCmpInt_nonpos_iff]
    exact le_of_not_lt h
  · rw [if_pos hxy] at h
    rw [if_pos (fun hc : y = x => hxy hc.symm)]
    omega

/-- Transitivity of the comparator's nonpositive cone on schedules whose
dates produce definite instants. -/
theorem scheduleCmp_trans {a b c : Schedule} (ha : (getDateValue a.date).isSome)
    (hb : (getDateValue b.date).isSome) (hc : (getDateValue c.date).isSome)
    (h1 : scheduleCmp a b ≤ 0) (h2 : scheduleCmp b c ≤ 0) :
    scheduleCmp a c ≤ 0 := by
  obtain ⟨x, hx⟩ := Option.isSome_iff_exists.mp ha
  obtain ⟨y, hy⟩ := Option.isSome_iff_exists.mp hb
  obtain ⟨z, hz⟩ := Option.isSome_iff_exists.mp hc
  rw [scheduleCmp_eq_of_some hx hy] at h1
  rw [scheduleCmp_eq_of_some hy hz] at h2
  rw [scheduleCmp_eq_of_some hx hz]
  by_cases hxy : x = y
  · subst hxy
    rw [if_neg (fun hc : x ≠ x => hc rfl)] at h1
    rw [strCmpInt_nonpos_iff] at h1
    by_cases hyz : x = z
    · subst hyz
      rw [if_neg (fun hc : x ≠ x => hc rfl)] at h2 ⊢
      rw [strCmpInt_nonpos_iff] at h2 ⊢
      exact le_trans h1 h2
    · rw [if_pos hyz] at h2 ⊢
      exact h2
  · rw [if_pos hxy] at h1
    by_cases hyz : y = z
    · subst hyz
      rw [if_pos hxy]
      exact h1
    · rw [if_pos hyz] at h2
      rw [if_pos (by omega : x ≠ z)]
      omega

/-- Inserting a definite-date schedule into a sorted list of definite-date
schedules keeps the list sorted under the comparator. -/
theorem pairwise_insertCmp {a : Schedule} {l : List Schedule}
    (ha : (getDateValue a.date).isSome)
    (hl : ∀ x ∈ l, (getDateValue x.date).isSome)
    (hp : l.Pairwise (fun u v => scheduleCmp u v ≤ 0)) :
    (insertCmp scheduleCmp a l).Pairwise (fun u v => scheduleCmp u v ≤ 0) := by
  induction l with
  | nil => simp [insertCmp]
  | cons b bs ih =>
    rw [List.pairwise_cons] at hp
    obtain ⟨hbrel, hbs⟩ := hp
    simp only [insertCmp]
    by_cases hab : scheduleCmp a b < 0
    · rw [if_pos hab]
      refine List.Pairwise.cons ?_ (List.Pairwise.cons hbrel hbs)
      intro x hx
      rcases List.mem_cons.mp hx with rfl | hxbs
      · exact le_of_lt hab
      · exact scheduleCmp_trans ha (hl b (by simp)) (hl x (by simp [hxbs]))
          (le_of_lt hab) (hbrel x hxbs)
    · rw [if_neg hab]
      refine List.Pairwise.cons ?_ (ih (fun x hx => hl x (by simp [hx])) hbs)
      intro x hx
      rcases (mem_insertCmp scheduleCmp a x bs).mp hx with rfl | hxbs
      · exact scheduleCmp_flip ha (hl b (by simp)) hab
      · exact hbrel x hxbs

theorem pairwise_foldl_insertCmp : ∀ (l acc : List Schedule),
    (∀ x ∈ l, (getDateValue x.date).isSome) →
    (∀ x ∈ acc, (getDateValue x.date).isSome) →
    acc.Pairwise (fun u v => scheduleCmp u v ≤ 0) →
    (l.foldl (fun acc a => insertCmp scheduleCmp a acc) acc).Pairwise
      (fun u v => scheduleCmp u v ≤ 0) := by
  intro l
  induction l with
  | nil => intro acc _ _ hp; simpa using hp
  | cons b bs ih =>
    intro acc hl hacc hp
    rw [List.foldl_cons]
    refine ih (insertCmp scheduleCmp b acc) (fun x hx => hl x (by simp [hx])) ?_ ?_
    · intro x hx
      rcases (mem_insertCmp scheduleCmp b x acc).mp hx with rfl | hxacc
      · exact hl x (by simp)
      · exact hacc x hxacc
    · exact pairwise_insertCmp (hl b (by simp)) hacc hp

/-- A schedule whose `date` field is `null`: `parseDateToISO` fails on it,
and the sort comparator assigns it the sentinel instant `0`. -/
def schNoDate : Schedule :=
  { id := "schBad", moduleTitle := "", floorNumber := "", classroomNumber := "",
    lecturerName := "", branch := "", startTime := "07:00", endTime := "08:00",
    date := .nullD, dayOfWeek := "", isRecurring := false,
    moduleId := "m1", courseId := "" }

/-- C2 counterexample: `schNoDate`'s date fails to parse while `sch1`'s date
is valid (2024-03-10), yet the chronological sort places `schNoDate`
BEFORE `sch1` — the comparator maps the unparsable date to the sentinel
instant `0` (the 1970 epoch), which sorts before every later valid date,
not after all valid dates as the claim states. -/
theorem unparsable_date_sorts_first :
    parseDateToISO schNoDate.date = none ∧
    (parseDateToISO sch1.date).isSome = true ∧
    sortCmp scheduleCmp [sch1, schNoDate] = [schNoDate, sch1] := by decide

/-- C2 amended.  The comparison never raises (it is a total function); on
lists all of whose dates yield definite instants the sorted output is
pairwise non-decreasing under the comparator, whose nonpositive cone is
exactly the lexicographic (instant, then startTime) order; and an entry
whose date is `null`, a number, a boolean, `undefined`, or a raw-seconds
object receives the sentinel instant `0` (the epoch), so such entries sort
before entries with later valid dates rather than after all of them. -/
theorem sortChronological_amended :
    (∀ l : List Schedule, (∀ s ∈ l, (getDateValue s.date).isSome) →
      (sortCmp scheduleCmp l).Pairwise (fun u v => scheduleCmp u v ≤ 0)) ∧
    (∀ (a b : Schedule) (x y : Int), getDateValue a.date = some x →
      getDateValue b.date = some y →
      (scheduleCmp a b ≤ 0 ↔ (x < y ∨ (x = y ∧ a.startTime ≤ b.startTime)))) ∧
    getDateValue .nullD = some 0 ∧
    getDateValue .undefD = some 0 ∧
    (∀ n : Int, getDateValue (.numD n) = some 0) ∧
    (∀ b : Bool, getDateValue (.boolD b) = some 0) ∧
    (∀ k : Int, getDateValue (.secondsOnly k) = some 0) := by
  refine ⟨?_, ?_, rfl, rfl, fun _ => rfl, fun _ => rfl, fun _ => rfl⟩
  · intro l hl
    exact pairwise_foldl_insertCmp l [] hl (by simp) (by simp)
  · intro a b x y hx hy
    rw [scheduleCmp_eq_of_some hx hy]
    by_cases hxy : x = y
    · subst hxy
      rw [if_neg (fun hc : x ≠ x => hc rfl), strCmpInt_nonpos_iff]
      constructor
      · intro h
        exact Or.inr ⟨rfl, h⟩
      · intro h
        rcases h with h | h
        · omega
        · exact h.2
    · rw [if_pos hxy]
      constructor
      · intro h
        exact Or.inl (by omega)
      · intro h
        rcases h with h | h
        · omega
        · exact absurd h.1 hxy

/-- C2 amended witness: a two-element valid-date list comes out sorted. -/
theorem sortChronological_amended_witness :
    (sortCmp scheduleCmp [sch1, schTs]).Pairwise
      (fun u v => scheduleCmp u v ≤ 0) :=
  sortChronological_amended.1 [sch1, schTs] (by decide)

end Vertex
